import Mathlib

/-!
Verification of the `tracknaliser` clustering engine.

This file shallowly embeds the two k-means implementations of the repository,
`cluster` (src/tracknaliser/clustering.py, scalar loops) and `cluster_numpy`
(src/tracknaliser/clustering_numpy.py, numpy bulk operations), and proves or
refutes the frozen claims about them.

Embedding conventions:
* Coordinates are modelled as exact rationals `ℚ`.  The spec's FeaturePoints
  are "ordered tuples of real numbers"; Python float64 rounding is abstracted
  away so that both implementations perform the same exact arithmetic.
* The Python code stores `sqrt`-distances and takes `distance.index(min(distance))`
  (resp. `np.argmin` of `np.linalg.norm`).  The executable definitions keep the
  *squared* distances (the radicands, exact in `ℚ`); since `Real.sqrt` is
  strictly monotone on nonnegatives, the first-minimum index is unchanged, and
  theorem `find_best_cluster_nearest` relates the executable definition to the
  genuine Euclidean (square-rooted) distances.
* numpy NaN values (produced by `np.mean` of an empty slice) are modelled by
  `Option ℚ`, with `none` standing for NaN.  NaN propagates through arithmetic
  and `np.argmin` returns the index of the first NaN of a slice.
* The ambient random sources (`random.randrange` in the scalar code,
  `np.random.choice` in the numpy code) are modelled by an explicit list
  `draws` of drawn indices; `draws.getD i 0` is the i-th value the RNG returned.
* Python exceptions are modelled by `Except ClusterError`.  A negative
  `Max_iterations` (resp. `clusters`) argument behaves in Python exactly like
  `0` (the `while` guard fails immediately; `range` of a non-positive number is
  empty and `[None] * n` is `[]`), so both counts are modelled as `ℕ`.
-/

deriving instance DecidableEq for Except

/-- A data point: an ordered tuple of real coordinates, modelled as `List ℚ`. -/
abbrev Point := List ℚ

/-- A numpy value: a float64 that may be NaN (`none`). -/
abbrev NpVal := Option ℚ

/-- A numpy row vector of possibly-NaN floats. -/
abbrev NpPoint := List NpVal

/-- The exceptions the two clustering functions can raise. -/
inductive ClusterError where
  /-- `ValueError("Number of clusters must be smaller than the number of given points.")`,
  raised when `clusters > len(points_list)`. -/
  | invalidConfig
  /-- `IndexError` from `points_list[0]` when the input list is empty. -/
  | indexError
  /-- `ValueError` from `min([])` (scalar) or `np.argmin` of an empty axis (numpy),
  raised during the first assignment pass when `clusters = 0` and at least one
  iteration runs. -/
  | emptyMin
  /-- `KeyError: pycenters` raised by `print_points` (both files look up the key
  `"centers"` although the entries are stored under the key `"center"`). -/
  | keyError
deriving DecidableEq

/-- `distance.index(min(distance))`: the index of the first occurrence of the
minimum of a list (Python's `min` returns the minimal value and `list.index`
the first position where it occurs).  `min([])` raises in Python; the `[]`
case here is junk that is guarded against at the call sites. -/
def index_min (l : List ℚ) : ℕ :=
  match l with
  | [] => 0
  | x :: xs => (x :: xs).findIdx (fun v => v == xs.foldl min x)

/-- `calculate_distance` of clustering.py computes
`sqrt(Σ_{i<dimension} (point[i] - center_point[i])^2)`; this definition is the
exact radicand (the squared Euclidean distance).  See `calculate_distance` for
the square-rooted value and `find_best_cluster_nearest` for the bridge. -/
def calculate_distance_sq (center_point point : Point) (dimension : ℕ) : ℚ :=
  (List.range dimension).foldl
    (fun square_distance i => square_distance + (point.getD i 0 - center_point.getD i 0) ^ 2) 0

/-- The genuine value computed by `calculate_distance` of clustering.py:
the Euclidean distance between `center_point` and `point`. -/
noncomputable def calculate_distance (center_point point : Point) (dimension : ℕ) : ℝ :=
  Real.sqrt (calculate_distance_sq center_point point dimension)

/-- `find_best_cluster` of clustering.py: build the list of distances to the
`clusters` centers and return `distance.index(min(distance))`.  The stored
values here are the squared distances; the first-minimum index is the same as
for the square-rooted ones (proved in `find_best_cluster_nearest`). -/
def find_best_cluster (clusters : ℕ) (point : Point) (centers : List Point)
    (dimension : ℕ) : ℕ :=
  index_min ((List.range clusters).map
    (fun cluster_id => calculate_distance_sq (centers.getD cluster_id []) point dimension))

/-- `mid_point` of clustering.py: the coordinate-wise arithmetic mean of a
list of points. -/
def mid_point (points : List Point) (dimension : ℕ) : Point :=
  (List.range dimension).map (fun i => (points.map (fun point => point.getD i 0)).sum / points.length)

/-- `rand_point` of clustering.py returns `points[randrange(len(points))]`;
the value returned by `randrange` is the explicit argument `idx`. -/
def rand_point (points : List Point) (idx : ℕ) : Point :=
  points.getD idx []

/-- The initial centers of `cluster`: `clusters` independent calls of
`rand_point`, consuming one RNG draw each. -/
def initial_centers (points : List Point) (clusters : ℕ) (draws : List ℕ) : List Point :=
  (List.range clusters).map (fun i => rand_point points (draws.getD i 0))

/-- `[point for point_index, point in enumerate(points_list) if
allocated_cluster[point_index] == cluster_id]`. -/
def allocated_points (points : List Point) (alloc : List ℕ) (cluster_id : ℕ) : List Point :=
  ((points.zip alloc).filter (fun pa => pa.2 == cluster_id)).map Prod.fst

/-- One pass of the scalar refinement loop body over the centers: recompute the
assignment of every point with the current centers, then for each cluster id
set the center to the mean of its allocated points, leaving it unchanged
(`pass`) when no point is allocated to it. -/
def stepCenters (points : List Point) (clusters dimension : ℕ) (centers : List Point) :
    List Point :=
  let alloc := points.map (fun point => find_best_cluster clusters point centers dimension)
  (List.range clusters).map (fun cluster_id =>
    let aps := allocated_points points alloc cluster_id
    if aps.isEmpty then centers.getD cluster_id [] else mid_point aps dimension)

/-- An entry of the returned `clusters_information` dictionary of `cluster`:
the inner dictionary `{'center': ..., 'allocated_points': ...}`. -/
structure ClusterEntry where
  center : Point
  allocated_points : List Point
deriving DecidableEq

/-- The `clusters_information` dictionary written on the final pass of
`cluster`: for each cluster id, the post-update center together with the points
allocated to it by that final pass's assignment. -/
def snapshot (points : List Point) (clusters dimension : ℕ) (centers : List Point) :
    List (ℕ × ClusterEntry) :=
  let alloc := points.map (fun point => find_best_cluster clusters point centers dimension)
  (List.range clusters).map (fun cluster_id =>
    let aps := allocated_points points alloc cluster_id
    (cluster_id, ⟨if aps.isEmpty then centers.getD cluster_id [] else mid_point aps dimension, aps⟩))

/-- The `while iteration < Max_iterations` loop shared by both implementations:
`step` is one assignment/update pass on the state, `snap` builds the
`clusters_information` dictionary from the state at the start of the last pass
(the pass with `iteration == Max_iterations - 1`).  `fuel` is an upper bound on
the remaining passes (the callers pass `Max_iterations`, which is exact since
`iteration` increases by one per pass from `0`); the returned `ℕ` is the final
value of the `iteration` variable, i.e. the number of executed passes. -/
def kmeansLoop {σ ρ : Type} (step : σ → σ) (snap : σ → ρ) (Max_iterations : ℕ) :
    ℕ → ℕ → σ → ρ → σ × ρ × ℕ
  | 0, iteration, s, info => (s, info, iteration)
  | fuel + 1, iteration, s, info =>
    if iteration < Max_iterations then
      kmeansLoop step snap Max_iterations fuel (iteration + 1) (step s)
        (if iteration = Max_iterations - 1 then snap s else info)
    else (s, info, iteration)

/-- `cluster` of clustering.py (with `output_print=False`), the scalar
implementation.  `draws` models the successive values returned by the ambient
`random.randrange(len(points_list))` calls. -/
def cluster (points_list : List Point) (Max_iterations clusters : ℕ) (draws : List ℕ) :
    Except ClusterError (List (ℕ × ClusterEntry)) :=
  if points_list.length < clusters then .error .invalidConfig
  else if points_list.isEmpty then .error .indexError
  else
    let dimension := (points_list.headD []).length
    let centers := initial_centers points_list clusters draws
    if clusters = 0 ∧ 0 < Max_iterations then .error .emptyMin
    else
      .ok ((kmeansLoop (stepCenters points_list clusters dimension)
        (snapshot points_list clusters dimension)
        Max_iterations Max_iterations 0 centers []).2.1)

/-! ### The numpy implementation -/

/-- One term of `np.linalg.norm(points - mean_point[:, None], axis=2)`:
the squared Euclidean distance from a data point to a (possibly NaN) center
row.  NaN propagates: if any coordinate of the center is NaN the whole sum is
NaN.  As in `calculate_distance_sq`, the square root applied by `norm` is
dropped; `np.argmin` picks the same index either way. -/
def npDistSq (dimension : ℕ) (center : NpPoint) (point : Point) : NpVal :=
  (List.range dimension).foldl
    (fun acc i =>
      match acc, center.getD i none with
      | some a, some c => some (a + (point.getD i 0 - c) ^ 2)
      | _, _ => none) (some 0)

/-- `np.argmin` over one slice: if the slice contains a NaN, the index of the
first NaN is returned; otherwise the index of the first occurrence of the
minimum. -/
def npArgmin (l : List NpVal) : ℕ :=
  if l.any (fun x => x.isNone) then l.findIdx (fun x => x.isNone)
  else index_min (l.map (fun x => x.getD 0))

/-- `Calculate_index` of clustering_numpy.py: for every point, the index of the
closest row of `mean_point` (`np.argmin(np.linalg.norm(points - mean_point[:, None],
axis=2), axis=0)`). -/
def Calculate_index (dimension : ℕ) (points : List Point) (mean_point : List NpPoint) :
    List ℕ :=
  points.map (fun point => npArgmin (mean_point.map (fun c => npDistSq dimension c point)))

/-- `np.mean(alloc_ps, axis=0)` over the points allocated to one cluster:
the coordinate-wise mean, or a row of NaN when the slice is empty. -/
def npMean (dimension : ℕ) (points : List Point) : NpPoint :=
  if points.isEmpty then (List.range dimension).map (fun _ => none)
  else (List.range dimension).map
    (fun i => some ((points.map (fun point => point.getD i 0)).sum / points.length))

/-- One pass of the numpy refinement loop body over the centers array:
`alloc = Calculate_index(points_list, centers)` then, for every cluster id,
`centers[i] = np.mean(points_list[np.argwhere(alloc == i)], axis=0)` —
with **no** empty-slice guard, so an empty cluster's center becomes NaN. -/
def npStepCenters (points : List Point) (clusters dimension : ℕ) (centers : List NpPoint) :
    List NpPoint :=
  let alloc := Calculate_index dimension points centers
  (List.range clusters).map (fun i => npMean dimension (allocated_points points alloc i))

/-- An entry of the dictionary returned by `cluster_numpy`:
`{'center': centers[i].tolist(), 'allocated_points': alloc_ps_converted}`.
The center row may contain NaN. -/
structure NpClusterEntry where
  center : NpPoint
  allocated_points : List Point
deriving DecidableEq

/-- The `clusters_information` dictionary written on the final pass of
`cluster_numpy`. -/
def npSnapshot (points : List Point) (clusters dimension : ℕ) (centers : List NpPoint) :
    List (ℕ × NpClusterEntry) :=
  let alloc := Calculate_index dimension points centers
  (List.range clusters).map (fun i =>
    let aps := allocated_points points alloc i
    (i, ⟨npMean dimension aps, aps⟩))

/-- The initial centers array of `cluster_numpy`:
`points_list[np.random.choice(points_number, size=clusters, replace=False)]`.
`draws` models the indices returned by `np.random.choice` (which are pairwise
distinct in a real run since `replace=False`). -/
def np_initial_centers (points : List Point) (clusters : ℕ) (draws : List ℕ) :
    List NpPoint :=
  (List.range clusters).map (fun i => (points.getD (draws.getD i 0) []).map some)

/-- `cluster_numpy` of clustering_numpy.py (with `print_output=False`). -/
def cluster_numpy (points_list : List Point) (Max_iterations clusters : ℕ)
    (draws : List ℕ) : Except ClusterError (List (ℕ × NpClusterEntry)) :=
  if points_list.length < clusters then .error .invalidConfig
  else if points_list.isEmpty then .error .indexError
  else
    let dimension := (points_list.headD []).length
    let centers := np_initial_centers points_list clusters draws
    if clusters = 0 ∧ 0 < Max_iterations then .error .emptyMin
    else
      .ok ((kmeansLoop (npStepCenters points_list clusters dimension)
        (npSnapshot points_list clusters dimension)
        Max_iterations Max_iterations 0 centers []).2.1)

/-- The correspondence between a scalar result entry and a numpy result entry:
same cluster id, center coordinates injected into the NaN-aware type, same
member list. -/
def npOfEntry (e : ℕ × ClusterEntry) : ℕ × NpClusterEntry :=
  (e.1, ⟨e.2.center.map some, e.2.allocated_points⟩)

/-! ### The textual-output path (`output_print=True` / `print_output=True`) -/

/-- A Python value stored in an inner result dictionary. -/
inductive PyVal where
  | pt (p : Point)
  | pts (l : List Point)
  | npPt (p : NpPoint)
deriving DecidableEq

/-- The inner dictionary `{'center': centers[cluster_id], 'allocated_points':
allocated_points}` written by `cluster`, with its string keys. -/
def entryDict (e : ClusterEntry) : List (String × PyVal) :=
  [("center", .pt e.center), ("allocated_points", .pts e.allocated_points)]

/-- The inner dictionary `{'center': centers[i].tolist(), 'allocated_points':
alloc_ps_converted}` written by `cluster_numpy`, with its string keys. -/
def npEntryDict (e : NpClusterEntry) : List (String × PyVal) :=
  [("center", .npPt e.center), ("allocated_points", .pts e.allocated_points)]

/-- `dic[key]` on a Python dictionary: `none` models a `KeyError`. -/
def dictLookup (d : List (String × PyVal)) (key : String) : Option PyVal :=
  (d.find? (fun kv => kv.1 == key)).map Prod.snd

/-- One emitted line of `print_points`: either the header
`"Cluster <id> is centred at <coords> and has <n> points."` (kept structured:
cluster id, the printed center value, the member count) or the printed member
list. -/
inductive PrintItem where
  | line (cluster : ℕ) (center : PyVal) (count : ℕ)
  | memberList (pts : List Point)
deriving DecidableEq

/-- `print_points` of clustering.py: for each `(cluster, dic)` item it first
evaluates `dic['centers']` — but the entries were stored under the key
`'center'`, so this lookup raises `KeyError` as soon as the dictionary is
non-empty. -/
def print_points : List (ℕ × ClusterEntry) → Except ClusterError (List PrintItem)
  | [] => .ok []
  | (cluster, dic) :: rest =>
    match dictLookup (entryDict dic) "centers" with
    | none => .error .keyError
    | some center =>
      match dictLookup (entryDict dic) "allocated_points" with
      | none => .error .keyError
      | some (.pts aps) =>
        (print_points rest).map
          (fun tail => .line cluster center aps.length :: .memberList aps :: tail)
      | some _ => .error .keyError

/-- `print_points` of clustering_numpy.py: identical `dic['centers']` lookup
(the extra `print_list` copy loop only runs after the lookup succeeds). -/
def np_print_points : List (ℕ × NpClusterEntry) → Except ClusterError (List PrintItem)
  | [] => .ok []
  | (cluster, dic) :: rest =>
    match dictLookup (npEntryDict dic) "centers" with
    | none => .error .keyError
    | some center =>
      match dictLookup (npEntryDict dic) "allocated_points" with
      | none => .error .keyError
      | some (.pts aps) =>
        (np_print_points rest).map
          (fun tail => .line cluster center aps.length ::
            .memberList (aps.foldr (fun i print_list => i :: print_list) []) :: tail)
      | some _ => .error .keyError

/-- `cluster(..., output_print=True)`: compute `clusters_information` exactly
as with the flag off, then emit `print_points(clusters_information)`; the
observable output is the emitted line sequence (the Python function itself
returns `None` on this path). -/
def cluster_output (points_list : List Point) (Max_iterations clusters : ℕ)
    (draws : List ℕ) : Except ClusterError (List PrintItem) :=
  (cluster points_list Max_iterations clusters draws).bind print_points

/-- `cluster_numpy(..., print_output=True)`. -/
def cluster_numpy_output (points_list : List Point) (Max_iterations clusters : ℕ)
    (draws : List ℕ) : Except ClusterError (List PrintItem) :=
  (cluster_numpy points_list Max_iterations clusters draws).bind np_print_points

/-! ### State-threaded variants tracking the caller's `points_list`

Every access the source code makes to the caller-owned `points_list` argument
is a read (`len`, subscripting, iteration in comprehensions, `np.array` copies
it); the following variants thread the caller's list as explicit state, one
read action per source access, so that non-mutation is a provable statement
rather than an artifact of a pure embedding. -/

/-- A computation reading (and possibly writing) the caller's `points_list`. -/
def PtsM (α : Type) := List Point → α × List Point

/-- A computation that does not touch the caller's list. -/
def ptsPure {α : Type} (a : α) : PtsM α := fun s => (a, s)

/-- Sequencing of two computations on the caller's list. -/
def ptsBind {α β : Type} (m : PtsM α) (f : α → PtsM β) : PtsM β :=
  fun s => f (m s).1 (m s).2

/-- `len(points_list)`. -/
def getPointsLen : PtsM ℕ := fun s => (s.length, s)

/-- `points_list[i]` (in-bounds at every call site of the source). -/
def getPoint (i : ℕ) : PtsM Point := fun s => (s.getD i [], s)

/-- Reading the whole list (iterating it in a comprehension, or copying it
with `np.array`). -/
def getPoints : PtsM (List Point) := fun s => (s, s)

/-- The initializer loop of `cluster`
(`for _ in range(clusters): centers.append(rand_point(points_list))`):
`clusters` successive indexing reads of the caller's list. -/
def readCenters (draws : List ℕ) : ℕ → PtsM (List Point)
  | 0 => ptsPure []
  | k + 1 =>
    ptsBind (readCenters draws k) (fun cs =>
      ptsBind (getPoint (draws.getD k 0)) (fun c => ptsPure (cs ++ [c])))

/-- `cluster` with its reads of the caller's `points_list` threaded through
`PtsM`. -/
def clusterTracked (Max_iterations clusters : ℕ) (draws : List ℕ) :
    PtsM (Except ClusterError (List (ℕ × ClusterEntry))) :=
  ptsBind getPointsLen (fun n =>
    if n < clusters then ptsPure (.error .invalidConfig)
    else ptsBind getPoints (fun pts0 =>
      if pts0.isEmpty then ptsPure (.error .indexError)
      else ptsBind (getPoint 0) (fun p0 =>
        let dimension := p0.length
        ptsBind (readCenters draws clusters) (fun centers =>
          if clusters = 0 ∧ 0 < Max_iterations then ptsPure (.error .emptyMin)
          else ptsBind getPoints (fun pts =>
            ptsPure (.ok ((kmeansLoop (stepCenters pts clusters dimension)
              (snapshot pts clusters dimension)
              Max_iterations Max_iterations 0 centers []).2.1)))))))

/-- `cluster_numpy` with its reads of the caller's `points_list` threaded
through `PtsM`; `np.array(points_list)` rebinds the local name to a copy, so
the engine subsequently works on the snapshot `arr`. -/
def clusterNumpyTracked (Max_iterations clusters : ℕ) (draws : List ℕ) :
    PtsM (Except ClusterError (List (ℕ × NpClusterEntry))) :=
  ptsBind getPointsLen (fun n =>
    if n < clusters then ptsPure (.error .invalidConfig)
    else ptsBind getPoints (fun pts0 =>
      if pts0.isEmpty then ptsPure (.error .indexError)
      else ptsBind (getPoint 0) (fun p0 =>
        let dimension := p0.length
        ptsBind getPoints (fun arr =>
          let centers := np_initial_centers arr clusters draws
          if clusters = 0 ∧ 0 < Max_iterations then ptsPure (.error .emptyMin)
          else ptsPure (.ok ((kmeansLoop (npStepCenters arr clusters dimension)
            (npSnapshot arr clusters dimension)
            Max_iterations Max_iterations 0 centers []).2.1))))))

/-! ### Auxiliary definitions used by the statements -/

/-- `n` successive applications of one refinement pass. -/
def iterSteps {σ : Type} (step : σ → σ) : ℕ → σ → σ
  | 0, s => s
  | n + 1, s => iterSteps step n (step s)

/-- One refinement pass of the scalar algorithm leaves no cluster empty:
every cluster id receives at least one point in the assignment computed
from `centers`. -/
def passNonempty (points : List Point) (clusters dimension : ℕ) (centers : List Point) : Bool :=
  (List.range clusters).all (fun cluster_id =>
    !(allocated_points points
        (points.map (fun point => find_best_cluster clusters point centers dimension))
        cluster_id).isEmpty)

/-- No cluster is empty at any of the `M` passes of the scalar run started
from `centers0`. -/
def noEmptyRun (points : List Point) (clusters dimension M : ℕ) (centers0 : List Point) : Bool :=
  (List.range M).all (fun t =>
    passNonempty points clusters dimension
      (iterSteps (stepCenters points clusters dimension) t centers0))

/-- Modelled from the spec (§4.7), for the refinement claim: a scalar centroid
coordinate `a` and a numpy one agree within relative tolerance `tol`
(`|b - a| ≤ tol * |a|`); a NaN coordinate agrees with nothing. -/
def coordAgree (tol a : ℚ) : NpVal → Bool
  | some b => |b - a| ≤ tol * |a|
  | none => false

/-- Modelled from the spec (§4.7): a scalar result entry and a numpy result
entry agree — same cluster id, same member list, and centroid coordinates
within `tol` relative tolerance. -/
def entryAgree (tol : ℚ) (es : ℕ × ClusterEntry) (en : ℕ × NpClusterEntry) : Bool :=
  (es.1 == en.1) && (es.2.allocated_points == en.2.allocated_points) &&
    (es.2.center.length == en.2.center.length) &&
    ((es.2.center.zip en.2.center).all (fun p => coordAgree tol p.1 p.2))

/-- Modelled from the spec (§4.7): the two implementations' results agree —
same entries in the same order, members equal, centroids within `tol`
relative tolerance. -/
def resultsAgree (tol : ℚ) (rs : List (ℕ × ClusterEntry))
    (rn : List (ℕ × NpClusterEntry)) : Bool :=
  (rs.length == rn.length) && ((rs.zip rn).all (fun p => entryAgree tol p.1 p.2))

/-! ### Properties of `index_min` (Python's `list.index(min(list))`) -/

lemma foldl_min_le_init (x : ℚ) (xs : List ℚ) : xs.foldl min x ≤ x := by
  induction xs generalizing x with
  | nil => exact le_refl x
  | cons y ys ih => exact le_trans (ih (min x y)) (min_le_left x y)

lemma foldl_min_le_mem (x : ℚ) {xs : List ℚ} {y : ℚ} (hy : y ∈ xs) : xs.foldl min x ≤ y := by
  induction xs generalizing x with
  | nil => cases hy
  | cons z ys ih =>
    rcases List.mem_cons.mp hy with h | h
    · subst h
      exact le_trans (foldl_min_le_init (min x y) ys) (min_le_right x y)
    · exact ih (min x z) h

lemma foldl_min_le (x : ℚ) {xs : List ℚ} {y : ℚ} (hy : y ∈ x :: xs) : xs.foldl min x ≤ y := by
  rcases List.mem_cons.mp hy with h | h
  · subst h; exact foldl_min_le_init y xs
  · exact foldl_min_le_mem x h

lemma foldl_min_mem (x : ℚ) (xs : List ℚ) : xs.foldl min x ∈ x :: xs := by
  induction xs generalizing x with
  | nil => exact List.mem_singleton.mpr rfl
  | cons y ys ih =>
    have h := ih (min x y)
    have hfold : (y :: ys).foldl min x = ys.foldl min (min x y) := rfl
    rw [hfold]
    rcases List.mem_cons.mp h with h' | h'
    · rw [h']
      rcases min_choice x y with hc | hc
      · rw [hc]; exact List.mem_cons_self x (y :: ys)
      · rw [hc]; exact List.mem_cons_of_mem x (List.mem_cons_self y ys)
    · exact List.mem_cons_of_mem x (List.mem_cons_of_mem y h')

lemma index_min_lt_length {l : List ℚ} (h : l ≠ []) : index_min l < l.length := by
  match l with
  | x :: xs =>
    apply List.findIdx_lt_length_of_exists
    exact ⟨xs.foldl min x, foldl_min_mem x xs, beq_self_eq_true _⟩

lemma getD_index_min {l : List ℚ} (h : l ≠ []) :
    ∀ j, j < l.length → l.getD (index_min l) 0 ≤ l.getD j 0 := by
  match l with
  | x :: xs =>
    intro j hj
    have hlt : index_min (x :: xs) < (x :: xs).length := index_min_lt_length h
    have hval : (x :: xs).getD (index_min (x :: xs)) 0 = xs.foldl min x := by
      rw [List.getD_eq_getElem _ _ hlt]
      have := @List.findIdx_getElem _ (fun v => v == xs.foldl min x) (x :: xs) hlt
      exact eq_of_beq this
    rw [hval, List.getD_eq_getElem _ _ hj]
    exact foldl_min_le x (List.getElem_mem hj)

lemma index_min_first {l : List ℚ} :
    ∀ j, j < index_min l → l.getD (index_min l) 0 < l.getD j 0 := by
  match l with
  | [] => intro j hj; simp [index_min] at hj
  | x :: xs =>
    intro j hj
    have hne : (x :: xs) ≠ [] := by simp
    have hlt : index_min (x :: xs) < (x :: xs).length := index_min_lt_length hne
    have hjl : j < (x :: xs).length := lt_trans hj hlt
    have hval : (x :: xs).getD (index_min (x :: xs)) 0 = xs.foldl min x := by
      rw [List.getD_eq_getElem _ _ hlt]
      have := @List.findIdx_getElem _ (fun v => v == xs.foldl min x) (x :: xs) hlt
      exact eq_of_beq this
    have hne2 : (x :: xs).getD j 0 ≠ xs.foldl min x := by
      rw [List.getD_eq_getElem _ _ hjl]
      have := @List.not_of_lt_findIdx _ (fun v => v == xs.foldl min x) (x :: xs) j hj
      intro hc
      rw [hc] at this
      simp at this
    have hle : xs.foldl min x ≤ (x :: xs).getD j 0 := by
      rw [List.getD_eq_getElem _ _ hjl]
      exact foldl_min_le x (List.getElem_mem hjl)
    rw [hval]
    exact lt_of_le_of_ne hle (fun hc => hne2 hc.symm)

/-! ### Properties of the assignment step -/

lemma getD_map_range {β : Type} [Inhabited β] (f : ℕ → β) (dflt : β) {j K : ℕ} (h : j < K) :
    ((List.range K).map f).getD j dflt = f j := by
  have hl : j < ((List.range K).map f).length := by
    rw [List.length_map, List.length_range]; exact h
  rw [List.getD_eq_getElem _ _ hl, List.getElem_map, List.getElem_range]

lemma map_range_getD {α β : Type} (l : List α) (g : α → β) (dflt : α) :
    (List.range l.length).map (fun i => g (l.getD i dflt)) = l.map g := by
  apply List.ext_getElem
  · simp
  · intro n h1 h2
    simp only [List.getElem_map, List.getElem_range]
    have hn : n < l.length := by simpa using h2
    rw [List.getD_eq_getElem _ _ hn]

lemma foldl_add_sq_nonneg (g : ℕ → ℚ) (l : List ℕ) :
    ∀ a : ℚ, 0 ≤ a → 0 ≤ l.foldl (fun acc i => acc + g i ^ 2) a := by
  induction l with
  | nil => intro a ha; exact ha
  | cons i is ih =>
    intro a ha
    exact ih (a + g i ^ 2) (add_nonneg ha (sq_nonneg (g i)))

lemma calculate_distance_sq_nonneg (center_point point : Point) (dimension : ℕ) :
    0 ≤ calculate_distance_sq center_point point dimension :=
  foldl_add_sq_nonneg (fun i => point.getD i 0 - center_point.getD i 0)
    (List.range dimension) 0 (le_refl 0)

lemma find_best_cluster_lt {clusters : ℕ} (hK : 0 < clusters) (point : Point)
    (centers : List Point) (dimension : ℕ) :
    find_best_cluster clusters point centers dimension < clusters := by
  have h := @index_min_lt_length ((List.range clusters).map
    (fun cluster_id => calculate_distance_sq (centers.getD cluster_id []) point dimension))
    (by simp [List.range_eq_nil]; omega)
  rw [List.length_map, List.length_range] at h
  exact h

lemma find_best_cluster_min_sq {clusters : ℕ} (hK : 0 < clusters) (point : Point)
    (centers : List Point) (dimension : ℕ) :
    ∀ j < clusters,
      calculate_distance_sq (centers.getD (find_best_cluster clusters point centers dimension) [])
          point dimension
        ≤ calculate_distance_sq (centers.getD j []) point dimension := by
  intro j hj
  set l := (List.range clusters).map
    (fun cluster_id => calculate_distance_sq (centers.getD cluster_id []) point dimension) with hl
  have hne : l ≠ [] := by simp [hl, List.range_eq_nil]; omega
  have hlen : l.length = clusters := by simp [hl]
  have h := getD_index_min hne j (by omega)
  have hfb : find_best_cluster clusters point centers dimension = index_min l := rfl
  rw [hfb]
  have h1 : l.getD (index_min l) 0 =
      calculate_distance_sq (centers.getD (index_min l) []) point dimension := by
    have : index_min l < clusters := by
      have := index_min_lt_length hne; omega
    exact getD_map_range _ 0 this
  have h2 : l.getD j 0 = calculate_distance_sq (centers.getD j []) point dimension :=
    getD_map_range _ 0 hj
  rw [h1, h2] at h
  exact h

lemma find_best_cluster_first_sq {clusters : ℕ} (point : Point)
    (centers : List Point) (dimension : ℕ) :
    ∀ j < find_best_cluster clusters point centers dimension,
      calculate_distance_sq (centers.getD (find_best_cluster clusters point centers dimension) [])
          point dimension
        < calculate_distance_sq (centers.getD j []) point dimension := by
  intro j hj
  set l := (List.range clusters).map
    (fun cluster_id => calculate_distance_sq (centers.getD cluster_id []) point dimension) with hl
  have hfb : find_best_cluster clusters point centers dimension = index_min l := rfl
  rw [hfb] at hj ⊢
  have hne : l ≠ [] := by
    intro hc
    rw [hc] at hj
    simp [index_min] at hj
  have hlen : l.length = clusters := by simp [hl]
  have himl : index_min l < clusters := by
    have := index_min_lt_length hne; omega
  have h := index_min_first j hj
  have h1 : l.getD (index_min l) 0 =
      calculate_distance_sq (centers.getD (index_min l) []) point dimension :=
    getD_map_range _ 0 himl
  have h2 : l.getD j 0 = calculate_distance_sq (centers.getD j []) point dimension :=
    getD_map_range _ 0 (by omega)
  rw [h1, h2] at h
  exact h

lemma find_best_cluster_min_dist {clusters : ℕ} (hK : 0 < clusters) (point : Point)
    (centers : List Point) (dimension : ℕ) :
    ∀ j < clusters,
      calculate_distance (centers.getD (find_best_cluster clusters point centers dimension) [])
          point dimension
        ≤ calculate_distance (centers.getD j []) point dimension := by
  intro j hj
  exact Real.sqrt_le_sqrt (by exact_mod_cast find_best_cluster_min_sq hK point centers dimension j hj)

lemma find_best_cluster_first_dist {clusters : ℕ} (point : Point)
    (centers : List Point) (dimension : ℕ) :
    ∀ j < find_best_cluster clusters point centers dimension,
      calculate_distance (centers.getD (find_best_cluster clusters point centers dimension) [])
          point dimension
        < calculate_distance (centers.getD j []) point dimension := by
  intro j hj
  apply Real.sqrt_lt_sqrt
  · exact_mod_cast calculate_distance_sq_nonneg _ point dimension
  · exact_mod_cast find_best_cluster_first_sq point centers dimension j hj

/-! ### numpy assignment: agreement with the scalar one on NaN-free centers -/

lemma npDistSq_map_some {center : Point} {dimension : ℕ} (hc : center.length = dimension)
    (point : Point) :
    npDistSq dimension (center.map some) point =
      some (calculate_distance_sq center point dimension) := by
  unfold npDistSq calculate_distance_sq
  have hgen : ∀ (l : List ℕ), (∀ i ∈ l, i < center.length) → ∀ a : ℚ,
      l.foldl (fun acc i =>
        match acc, (center.map some).getD i none with
        | some b, some c => some (b + (point.getD i 0 - c) ^ 2)
        | _, _ => none) (some a)
      = some (l.foldl
          (fun square_distance i => square_distance + (point.getD i 0 - center.getD i 0) ^ 2) a) := by
    intro l
    induction l with
    | nil => intro _ a; rfl
    | cons i is ih =>
      intro hmem a
      have hi : i < center.length := hmem i (List.mem_cons_self i is)
      have hge : (center.map some).getD i none = some (center.getD i 0) := by
        have hi2 : i < (center.map some).length := by rw [List.length_map]; exact hi
        rw [List.getD_eq_getElem _ _ hi2, List.getElem_map, List.getD_eq_getElem _ _ hi]
      simp only [List.foldl_cons, hge]
      exact ih (fun j hj => hmem j (List.mem_cons_of_mem i hj)) _
  apply hgen
  intro i hi
  rw [hc]
  exact List.mem_range.mp hi

lemma map_getD_some_comp (vals : List ℚ) :
    vals.map ((fun x : NpVal => x.getD 0) ∘ some) = vals := by
  induction vals with
  | nil => rfl
  | cons v vs ih => simp only [List.map_cons, ih]; rfl

lemma npArgmin_map_some (vals : List ℚ) : npArgmin (vals.map some) = index_min vals := by
  unfold npArgmin
  have hany : (vals.map some).any (fun x => x.isNone) = false := by
    simp [List.any_map, Function.comp]
  rw [hany]
  simp only [Bool.false_eq_true, if_false, List.map_map]
  rw [map_getD_some_comp]

lemma npArgmin_centers (centers : List Point) (dimension : ℕ) (point : Point)
    (hwfc : ∀ c ∈ centers, c.length = dimension) :
    npArgmin ((centers.map (fun c => c.map some)).map (fun c => npDistSq dimension c point))
      = find_best_cluster centers.length point centers dimension := by
  have h1 : (centers.map (fun c => c.map some)).map (fun c => npDistSq dimension c point)
      = centers.map (fun c => some (calculate_distance_sq c point dimension)) := by
    rw [List.map_map]
    apply List.map_congr_left
    intro c hc
    exact npDistSq_map_some (hwfc c hc) point
  have h2 : centers.map (fun c => some (calculate_distance_sq c point dimension))
      = (centers.map (fun c => calculate_distance_sq c point dimension)).map some := by
    rw [List.map_map]; rfl
  rw [h1, h2, npArgmin_map_some]
  unfold find_best_cluster
  congr 1
  have := map_range_getD centers (fun c => calculate_distance_sq c point dimension) []
  exact this.symm

lemma Calculate_index_parity (points : List Point) (centers : List Point) (dimension : ℕ)
    (hwfc : ∀ c ∈ centers, c.length = dimension) :
    Calculate_index dimension points (centers.map (fun c => c.map some))
      = points.map (fun point => find_best_cluster centers.length point centers dimension) := by
  unfold Calculate_index
  apply List.map_congr_left
  intro p _
  exact npArgmin_centers centers dimension p hwfc

/-! ### The refinement loop: closed form and iteration count -/

lemma iterSteps_succ_last {σ : Type} (step : σ → σ) (n : ℕ) (s : σ) :
    iterSteps step (n + 1) s = step (iterSteps step n s) := by
  induction n generalizing s with
  | zero => rfl
  | succ m ih => exact ih (step s)

lemma iterSteps_add {σ : Type} (step : σ → σ) (a b : ℕ) (s : σ) :
    iterSteps step (a + b) s = iterSteps step b (iterSteps step a s) := by
  induction a generalizing s with
  | zero => rw [Nat.zero_add]; rfl
  | succ m ih =>
    have h1 : m + 1 + b = m + b + 1 := by omega
    rw [h1]
    show iterSteps step (m + b) (step s) = _
    rw [ih (step s)]
    rfl

lemma iterSteps_fixed {σ : Type} (step : σ → σ) {s : σ} (h : step s = s) :
    ∀ k, iterSteps step k s = s := by
  intro k
  induction k with
  | zero => rfl
  | succ m ih =>
    show iterSteps step m (step s) = s
    rw [h]
    exact ih

lemma kmeansLoop_run {σ ρ : Type} (step : σ → σ) (snap : σ → ρ) (M : ℕ) :
    ∀ (fuel iteration : ℕ) (s : σ) (info : ρ), iteration + fuel = M →
      kmeansLoop step snap M fuel iteration s info =
        (iterSteps step fuel s,
         (if fuel = 0 then info else snap (iterSteps step (fuel - 1) s)), M) := by
  intro fuel
  induction fuel with
  | zero =>
    intro iteration s info h
    have hM : iteration = M := by omega
    subst hM
    simp [kmeansLoop, iterSteps]
  | succ f ih =>
    intro iteration s info h
    have hlt : iteration < M := by omega
    simp only [kmeansLoop, if_pos hlt]
    rw [ih (iteration + 1) (step s) _ (by omega)]
    have hstep : iterSteps step f (step s) = iterSteps step (f + 1) s := rfl
    rw [hstep]
    rcases Nat.eq_zero_or_pos f with hf | hf
    · subst hf
      have hit : iteration = M - 1 := by omega
      simp only [if_pos rfl, if_pos hit]
      have h0 : (0 + 1 - 1 : ℕ) = 0 := rfl
      simp [iterSteps]
    · have hne : f ≠ 0 := by omega
      have hit : iteration ≠ M - 1 := by omega
      simp only [if_neg hne, if_neg hit]
      have h1 : f + 1 - 1 = f := by omega
      have h2 : f - 1 + 1 = f := by omega
      rw [h1]
      have h3 : iterSteps step (f - 1) (step s) = iterSteps step f s := by
        conv_rhs => rw [← h2]
        rfl
      rw [h3]
      simp [if_neg (by omega : ¬ (f + 1 = 0))]

lemma cluster_closed_form (points : List Point) (M clusters : ℕ) (draws : List ℕ)
    (hK : 0 < clusters) (hKN : clusters ≤ points.length) (hM : 0 < M) :
    cluster points M clusters draws =
      .ok (snapshot points clusters (points.headD []).length
        (iterSteps (stepCenters points clusters (points.headD []).length) (M - 1)
          (initial_centers points clusters draws))) := by
  have hne : points.isEmpty = false := by
    cases points with
    | nil => simp at hKN; omega
    | cons p0 rest => rfl
  unfold cluster
  rw [if_neg (by simp only [not_lt]; exact hKN), hne]
  simp only [Bool.false_eq_true, if_false]
  rw [if_neg (by omega : ¬ (clusters = 0 ∧ 0 < M))]
  rw [kmeansLoop_run _ _ M M 0 _ _ (by omega)]
  simp only [if_neg (by omega : ¬ (M = 0))]

lemma cluster_numpy_closed_form (points : List Point) (M clusters : ℕ) (draws : List ℕ)
    (hK : 0 < clusters) (hKN : clusters ≤ points.length) (hM : 0 < M) :
    cluster_numpy points M clusters draws =
      .ok (npSnapshot points clusters (points.headD []).length
        (iterSteps (npStepCenters points clusters (points.headD []).length) (M - 1)
          (np_initial_centers points clusters draws))) := by
  have hne : points.isEmpty = false := by
    cases points with
    | nil => simp at hKN; omega
    | cons p0 rest => rfl
  unfold cluster_numpy
  rw [if_neg (by simp only [not_lt]; exact hKN), hne]
  simp only [Bool.false_eq_true, if_false]
  rw [if_neg (by omega : ¬ (clusters = 0 ∧ 0 < M))]
  rw [kmeansLoop_run _ _ M M 0 _ _ (by omega)]
  simp only [if_neg (by omega : ¬ (M = 0))]

/-! ### The partition property of the final snapshot -/

lemma allocated_points_map (points : List Point) (f : Point → ℕ) (c : ℕ) :
    allocated_points points (points.map f) c = points.filter (fun p => f p == c) := by
  unfold allocated_points
  have hzip : points.zip (points.map f) = points.map (fun p => (p, f p)) := by
    have h := List.zip_map' id f points
    rw [List.map_id] at h
    exact h
  rw [hzip, List.filter_map]
  rw [List.map_map]
  have hcomp : (fun pa : Point × ℕ => pa.2 == c) ∘ (fun p => (p, f p)) = fun p => f p == c := rfl
  rw [hcomp]
  have hfst : Prod.fst ∘ (fun p : Point => (p, f p)) = id := rfl
  rw [hfst, List.map_id]

lemma mem_allocated_points {points : List Point} {f : Point → ℕ} {c : ℕ} {p : Point} :
    p ∈ allocated_points points (points.map f) c ↔ p ∈ points ∧ f p = c := by
  rw [allocated_points_map, List.mem_filter]
  simp

lemma countP_range_eq_one {a K : ℕ} (h : a < K) :
    (List.range K).countP (fun c => a == c) = 1 := by
  induction K with
  | zero => omega
  | succ k ih =>
    rw [List.range_succ, List.countP_append]
    rcases Nat.lt_or_ge a k with hk | hk
    · rw [ih hk]
      have : (a == k) = false := by simp; omega
      simp [List.countP, List.countP.go, this]
    · have hak : a = k := by omega
      subst hak
      have hz : (List.range a).countP (fun c => a == c) = 0 := by
        rw [List.countP_eq_zero]
        intro b hb
        have : b < a := List.mem_range.mp hb
        simp; omega
      rw [hz]
      simp [List.countP, List.countP.go]

lemma npArgmin_lt {l : List NpVal} (h : l ≠ []) : npArgmin l < l.length := by
  unfold npArgmin
  rcases ha : l.any (fun x => x.isNone) with hfalse | htrue
  · simp only [Bool.false_eq_true, if_false]
    have h2 := @index_min_lt_length (l.map (fun x => x.getD 0)) (by simpa using h)
    rw [List.length_map] at h2
    exact h2
  · simp only [if_true]
    rcases List.any_eq_true.mp ha with ⟨x, hx, hpx⟩
    exact List.findIdx_lt_length_of_exists ⟨x, hx, hpx⟩

/-- Both snapshots are partitions: the keys are `0..K-1` in order, and every
input point belongs to the member list of exactly one entry. -/
lemma snapshot_keys (points : List Point) (clusters dimension : ℕ) (centers : List Point) :
    (snapshot points clusters dimension centers).map Prod.fst = List.range clusters := by
  unfold snapshot
  rw [List.map_map]
  apply List.ext_getElem
  · simp
  · intro n h1 h2
    simp [Function.comp]

lemma npSnapshot_keys (points : List Point) (clusters dimension : ℕ) (centers : List NpPoint) :
    (npSnapshot points clusters dimension centers).map Prod.fst = List.range clusters := by
  unfold npSnapshot
  rw [List.map_map]
  apply List.ext_getElem
  · simp
  · intro n h1 h2
    simp [Function.comp]

lemma snapshot_partition {points : List Point} {clusters dimension : ℕ} {centers : List Point}
    (hK : 0 < clusters) :
    ∀ p ∈ points,
      (snapshot points clusters dimension centers).countP
        (fun e => decide (p ∈ e.2.allocated_points)) = 1 := by
  intro p hp
  unfold snapshot
  rw [List.countP_map]
  set f := fun point => find_best_cluster clusters point centers dimension with hf
  have hcong : ∀ c ∈ List.range clusters,
      ((fun e : ℕ × ClusterEntry => decide (p ∈ e.2.allocated_points)) ∘
        (fun cluster_id => (cluster_id,
          (⟨if (allocated_points points (points.map f) cluster_id).isEmpty then
              centers.getD cluster_id []
            else mid_point (allocated_points points (points.map f) cluster_id) dimension,
            allocated_points points (points.map f) cluster_id⟩ : ClusterEntry)))) c = true
      ↔ (f p == c) = true := by
    intro c _
    simp only [Function.comp]
    rw [decide_eq_true_iff]
    rw [mem_allocated_points]
    simp [hp]
  rw [List.countP_congr hcong]
  exact countP_range_eq_one (find_best_cluster_lt hK p centers dimension)

lemma npSnapshot_partition {points : List Point} {clusters dimension : ℕ}
    {centers : List NpPoint} (hK : 0 < clusters) (hlen : centers.length = clusters) :
    ∀ p ∈ points,
      (npSnapshot points clusters dimension centers).countP
        (fun e => decide (p ∈ e.2.allocated_points)) = 1 := by
  intro p hp
  unfold npSnapshot Calculate_index
  rw [List.countP_map]
  set f := fun point => npArgmin (centers.map (fun c => npDistSq dimension c point)) with hf
  have hcong : ∀ c ∈ List.range clusters,
      ((fun e : ℕ × NpClusterEntry => decide (p ∈ e.2.allocated_points)) ∘
        (fun i => (i, (⟨npMean dimension (allocated_points points (points.map f) i),
          allocated_points points (points.map f) i⟩ : NpClusterEntry)))) c = true
      ↔ (f p == c) = true := by
    intro c _
    simp only [Function.comp]
    rw [decide_eq_true_iff]
    rw [mem_allocated_points]
    simp [hp]
  rw [List.countP_congr hcong]
  apply countP_range_eq_one
  have hne : centers.map (fun c => npDistSq dimension c p) ≠ [] := by
    intro hc
    have := congrArg List.length hc
    rw [List.length_map, hlen] at this
    simp at this
    omega
  have := npArgmin_lt hne
  rw [List.length_map, hlen] at this
  exact this

/-! ### Scalar/numpy parity on runs without degenerate clusters -/

lemma stepCenters_length (points : List Point) (clusters dimension : ℕ)
    (centers : List Point) : (stepCenters points clusters dimension centers).length = clusters := by
  simp [stepCenters]

lemma npStepCenters_length (points : List Point) (clusters dimension : ℕ)
    (centers : List NpPoint) :
    (npStepCenters points clusters dimension centers).length = clusters := by
  simp [npStepCenters]

lemma np_initial_centers_eq (points : List Point) (clusters : ℕ) (draws : List ℕ) :
    np_initial_centers points clusters draws =
      (initial_centers points clusters draws).map (fun c => c.map some) := by
  unfold np_initial_centers initial_centers rand_point
  rw [List.map_map]
  rfl

lemma npMean_nonempty {aps : List Point} (h : aps.isEmpty = false) (dimension : ℕ) :
    npMean dimension aps = (mid_point aps dimension).map some := by
  unfold npMean mid_point
  rw [h]
  simp only [Bool.false_eq_true, if_false, List.map_map]
  rfl

lemma passNonempty_iff {points : List Point} {clusters dimension : ℕ} {centers : List Point} :
    passNonempty points clusters dimension centers = true ↔
      ∀ c < clusters,
        (allocated_points points
          (points.map (fun point => find_best_cluster clusters point centers dimension))
          c).isEmpty = false := by
  unfold passNonempty
  rw [List.all_eq_true]
  constructor
  · intro h c hc
    have := h c (List.mem_range.mpr hc)
    simpa using this
  · intro h c hc
    have := h c (List.mem_range.mp hc)
    simpa using this

lemma stepCenters_parity {points : List Point} {clusters dimension : ℕ} {centers : List Point}
    (hlen : centers.length = clusters)
    (hwfc : ∀ c ∈ centers, c.length = dimension)
    (hne : passNonempty points clusters dimension centers = true) :
    npStepCenters points clusters dimension (centers.map (fun c => c.map some)) =
      (stepCenters points clusters dimension centers).map (fun c => c.map some) := by
  unfold npStepCenters stepCenters
  rw [Calculate_index_parity points centers dimension hwfc, hlen]
  rw [List.map_map]
  apply List.map_congr_left
  intro c hc
  have hcc : c < clusters := List.mem_range.mp hc
  have hemp := passNonempty_iff.mp hne c hcc
  simp only [Function.comp, hemp, Bool.false_eq_true, if_false]
  exact npMean_nonempty hemp dimension

lemma stepCenters_wf {points : List Point} {clusters dimension : ℕ} {centers : List Point}
    (hne : passNonempty points clusters dimension centers = true) :
    ∀ c ∈ stepCenters points clusters dimension centers, c.length = dimension := by
  intro c hc
  unfold stepCenters at hc
  rcases List.mem_map.mp hc with ⟨i, hi, hval⟩
  have hic : i < clusters := List.mem_range.mp hi
  have hemp := passNonempty_iff.mp hne i hic
  simp only [hemp, Bool.false_eq_true, if_false] at hval
  rw [← hval]
  simp [mid_point]

lemma iter_parity {points : List Point} {clusters dimension : ℕ} {centers0 : List Point}
    (h0len : centers0.length = clusters)
    (h0wf : ∀ c ∈ centers0, c.length = dimension)
    {M : ℕ} (hne : noEmptyRun points clusters dimension M centers0 = true) :
    ∀ t ≤ M,
      iterSteps (npStepCenters points clusters dimension) t
          (centers0.map (fun c => c.map some)) =
        (iterSteps (stepCenters points clusters dimension) t centers0).map
          (fun c => c.map some) ∧
      (iterSteps (stepCenters points clusters dimension) t centers0).length = clusters ∧
      (∀ c ∈ iterSteps (stepCenters points clusters dimension) t centers0,
        c.length = dimension) := by
  intro t
  induction t with
  | zero => intro _; exact ⟨rfl, h0len, h0wf⟩
  | succ k ih =>
    intro hk
    obtain ⟨hmap, hlen, hwf⟩ := ih (by omega)
    have hpass : passNonempty points clusters dimension
        (iterSteps (stepCenters points clusters dimension) k centers0) = true := by
      have := List.all_eq_true.mp hne k (List.mem_range.mpr (by omega))
      simpa using this
    constructor
    · rw [iterSteps_succ_last, iterSteps_succ_last, hmap]
      exact stepCenters_parity hlen hwf hpass
    constructor
    · rw [iterSteps_succ_last]
      exact stepCenters_length points clusters dimension _
    · rw [iterSteps_succ_last]
      exact stepCenters_wf hpass

lemma snapshot_parity {points : List Point} {clusters dimension : ℕ} {centers : List Point}
    (hlen : centers.length = clusters)
    (hwfc : ∀ c ∈ centers, c.length = dimension)
    (hne : passNonempty points clusters dimension centers = true) :
    npSnapshot points clusters dimension (centers.map (fun c => c.map some)) =
      (snapshot points clusters dimension centers).map npOfEntry := by
  unfold npSnapshot snapshot
  rw [Calculate_index_parity points centers dimension hwfc, hlen]
  rw [List.map_map]
  apply List.map_congr_left
  intro c hc
  have hcc : c < clusters := List.mem_range.mp hc
  have hemp := passNonempty_iff.mp hne c hcc
  simp only [Function.comp, npOfEntry, hemp, Bool.false_eq_true, if_false]
  rw [npMean_nonempty hemp dimension]

lemma initial_centers_length (points : List Point) (clusters : ℕ) (draws : List ℕ) :
    (initial_centers points clusters draws).length = clusters := by
  simp [initial_centers]

lemma initial_centers_mem {points : List Point} {clusters : ℕ} {draws : List ℕ}
    (hdr : ∀ i < clusters, draws.getD i 0 < points.length) :
    ∀ c ∈ initial_centers points clusters draws, c ∈ points := by
  intro c hc
  rcases List.mem_map.mp hc with ⟨i, hi, hval⟩
  have hic : i < clusters := List.mem_range.mp hi
  have hidx : draws.getD i 0 < points.length := hdr i hic
  rw [← hval]
  unfold rand_point
  rw [List.getD_eq_getElem _ _ hidx]
  exact List.getElem_mem hidx

lemma cluster_parity_core (points : List Point) (M clusters : ℕ) (draws : List ℕ)
    (hwf : ∀ p ∈ points, p.length = (points.headD []).length)
    (hdr : ∀ i < clusters, draws.getD i 0 < points.length)
    (hne : noEmptyRun points clusters (points.headD []).length M
      (initial_centers points clusters draws) = true) :
    cluster_numpy points M clusters draws =
      Except.map (List.map npOfEntry) (cluster points M clusters draws) := by
  set dimension := (points.headD []).length with hdim
  by_cases h1 : points.length < clusters
  · unfold cluster cluster_numpy
    rw [if_pos h1, if_pos h1]
    rfl
  by_cases h2 : points.isEmpty
  · unfold cluster cluster_numpy
    rw [if_neg h1, if_neg h1, if_pos h2, if_pos h2]
    rfl
  by_cases h3 : clusters = 0 ∧ 0 < M
  · unfold cluster cluster_numpy
    rw [if_neg h1, if_neg h1]
    simp only [Bool.not_eq_true] at h2
    rw [h2]
    simp only [Bool.false_eq_true, if_false]
    rw [if_pos h3, if_pos h3]
    rfl
  · rcases Nat.eq_zero_or_pos M with hM | hM
    · subst hM
      unfold cluster cluster_numpy
      rw [if_neg h1, if_neg h1]
      simp only [Bool.not_eq_true] at h2
      rw [h2]
      simp only [Bool.false_eq_true, if_false]
      rw [if_neg h3, if_neg h3]
      rfl
    · have hK : 0 < clusters := by
        rcases Nat.eq_zero_or_pos clusters with hc | hc
        · exact absurd ⟨hc, hM⟩ h3
        · exact hc
      have hKN : clusters ≤ points.length := by omega
      rw [cluster_closed_form points M clusters draws hK hKN hM,
        cluster_numpy_closed_form points M clusters draws hK hKN hM]
      simp only [Except.map]
      have h0len := initial_centers_length points clusters draws
      have h0wf : ∀ c ∈ initial_centers points clusters draws, c.length = dimension := by
        intro c hc
        exact hwf c (initial_centers_mem hdr c hc)
      obtain ⟨hmap, hlen, hwfc⟩ :=
        iter_parity h0len h0wf hne (M - 1) (by omega)
      have hpass : passNonempty points clusters dimension
          (iterSteps (stepCenters points clusters dimension) (M - 1)
            (initial_centers points clusters draws)) = true := by
        have := List.all_eq_true.mp hne (M - 1) (List.mem_range.mpr (by omega))
        simpa using this
      rw [np_initial_centers_eq, hmap]
      rw [snapshot_parity hlen hwfc hpass]

/-! ### The tracked variants: state preservation and agreement with the pure model -/

lemma readCenters_run (draws : List ℕ) (clusters : ℕ) (s : List Point) :
    readCenters draws clusters s = (initial_centers s clusters draws, s) := by
  induction clusters with
  | zero => rfl
  | succ k ih =>
    show ptsBind (readCenters draws k) _ s = _
    unfold ptsBind
    rw [ih]
    show (initial_centers s k draws ++ [s.getD (draws.getD k 0) []], s) = _
    unfold initial_centers rand_point
    rw [List.range_succ, List.map_append]
    rfl

lemma getD_zero_eq_headD (l : List Point) : l.getD 0 [] = l.headD [] := by
  cases l <;> rfl

lemma clusterTracked_run (Max_iterations clusters : ℕ) (draws : List ℕ) (points : List Point) :
    clusterTracked Max_iterations clusters draws points =
      (cluster points Max_iterations clusters draws, points) := by
  unfold clusterTracked cluster
  unfold ptsBind ptsPure getPointsLen getPoints getPoint
  simp only []
  by_cases h1 : points.length < clusters
  · rw [if_pos h1, if_pos h1]
  · rw [if_neg h1, if_neg h1]
    by_cases h2 : points.isEmpty
    · rw [if_pos h2, if_pos h2]
    · rw [if_neg h2, if_neg h2]
      rw [readCenters_run, getD_zero_eq_headD]
      by_cases h3 : clusters = 0 ∧ 0 < Max_iterations
      · rw [if_pos h3, if_pos h3]
      · rw [if_neg h3, if_neg h3]

lemma clusterNumpyTracked_run (Max_iterations clusters : ℕ) (draws : List ℕ)
    (points : List Point) :
    clusterNumpyTracked Max_iterations clusters draws points =
      (cluster_numpy points Max_iterations clusters draws, points) := by
  unfold clusterNumpyTracked cluster_numpy
  unfold ptsBind ptsPure getPointsLen getPoints getPoint
  simp only []
  by_cases h1 : points.length < clusters
  · rw [if_pos h1, if_pos h1]
  · rw [if_neg h1, if_neg h1]
    by_cases h2 : points.isEmpty
    · rw [if_pos h2, if_pos h2]
    · rw [if_neg h2, if_neg h2]
      rw [getD_zero_eq_headD]
      by_cases h3 : clusters = 0 ∧ 0 < Max_iterations
      · rw [if_pos h3, if_pos h3]
      · rw [if_neg h3, if_neg h3]

lemma np_initial_centers_length (points : List Point) (clusters : ℕ) (draws : List ℕ) :
    (np_initial_centers points clusters draws).length = clusters := by
  simp [np_initial_centers]

lemma npIter_length (points : List Point) (clusters dimension : ℕ) {c0 : List NpPoint}
    (h0 : c0.length = clusters) :
    ∀ t, (iterSteps (npStepCenters points clusters dimension) t c0).length = clusters := by
  intro t
  induction t with
  | zero => exact h0
  | succ k ih =>
    rw [iterSteps_succ_last]
    exact npStepCenters_length points clusters dimension _

lemma coordAgree_refl {tol : ℚ} (htol : 0 ≤ tol) (a : ℚ) :
    coordAgree tol a (some a) = true := by
  unfold coordAgree
  rw [decide_eq_true_eq, sub_self, abs_zero]
  exact mul_nonneg htol (abs_nonneg a)

lemma entryAgree_refl {tol : ℚ} (htol : 0 ≤ tol) (e : ℕ × ClusterEntry) :
    entryAgree tol e (npOfEntry e) = true := by
  unfold entryAgree npOfEntry
  simp only [beq_self_eq_true, Bool.true_and, List.length_map]
  rw [List.all_eq_true]
  intro pr hpr
  have hz : e.2.center.zip (e.2.center.map some) =
      e.2.center.map (fun a => (a, some a)) := by
    have h := List.zip_map' id some e.2.center
    rw [List.map_id] at h
    exact h
  rw [hz] at hpr
  rcases List.mem_map.mp hpr with ⟨a, _, hval⟩
  rw [← hval]
  exact coordAgree_refl htol a

lemma resultsAgree_map {tol : ℚ} (htol : 0 ≤ tol) (rs : List (ℕ × ClusterEntry)) :
    resultsAgree tol rs (rs.map npOfEntry) = true := by
  unfold resultsAgree
  rw [Bool.and_eq_true]
  constructor
  · simp
  · rw [List.all_eq_true]
    intro pr hpr
    have hz : rs.zip (rs.map npOfEntry) = rs.map (fun e => (e, npOfEntry e)) := by
      have h := List.zip_map' id npOfEntry rs
      rw [List.map_id] at h
      exact h
    rw [hz] at hpr
    rcases List.mem_map.mp hpr with ⟨e, _, hval⟩
    rw [← hval]
    exact entryAgree_refl htol e

/-! ### The claims -/

/-- **C1 (amended).** Provided every cluster receives at least one point in
every pass of the run (and the input is well-formed: equal-dimension points,
in-range initializer draws), `cluster_numpy` run from the same initial
centroids produces exactly the scalar `cluster` result — same error behavior,
same cluster ids, same member lists, and centroid values exactly equal in the
exact-rational model (hence within every nonnegative relative tolerance,
in particular `1e-9`), with the same tie-break rule. -/
theorem cluster_numpy_parity (points : List Point) (M clusters : ℕ) (draws : List ℕ)
    (hwf : ∀ p ∈ points, p.length = (points.headD []).length)
    (hdr : ∀ i < clusters, draws.getD i 0 < points.length)
    (hne : noEmptyRun points clusters (points.headD []).length M
      (initial_centers points clusters draws) = true) :
    cluster_numpy points M clusters draws =
      Except.map (List.map npOfEntry) (cluster points M clusters draws) ∧
    (∀ tol : ℚ, 0 ≤ tol → ∀ rs rn,
      cluster points M clusters draws = .ok rs →
      cluster_numpy points M clusters draws = .ok rn →
      resultsAgree tol rs rn = true) := by
  have hcore := cluster_parity_core points M clusters draws hwf hdr hne
  refine ⟨hcore, ?_⟩
  intro tol htol rs rn hs hn
  rw [hcore, hs] at hn
  have : rn = rs.map npOfEntry := by
    simpa [Except.map] using hn.symm
  rw [this]
  exact resultsAgree_map htol rs

set_option maxRecDepth 100000 in
/-- Witness for C1: the spec's own example scenario (4 points, `K = 2`,
`M = 5`, draws `[0, 2]`) satisfies the hypotheses and the parity conclusion. -/
theorem cluster_numpy_parity_witness :
    cluster_numpy [[0,0],[0,1],[10,10],[10,11]] 5 2 [0,2] =
      Except.map (List.map npOfEntry) (cluster [[0,0],[0,1],[10,10],[10,11]] 5 2 [0,2]) :=
  (cluster_numpy_parity [[0,0],[0,1],[10,10],[10,11]] 5 2 [0,2]
    (of_decide_eq_true (by with_unfolding_all rfl))
    (by decide)
    (by with_unfolding_all rfl)).1

set_option maxRecDepth 100000 in
/-- **C1 (counterexample).** `points = [(0,0),(0,0),(1,0)]`, `K = 2`, `M = 1`,
both implementations started from the same initial centroids (draws `[0, 1]`:
two distinct indices holding the equal points `(0,0)` and `(0,0)`).  Every
point ties to cluster 0, cluster 1 ends empty: the scalar result keeps
centroid `(0,0)` for cluster 1 while the numpy result's centroid for cluster 1
is NaN, so the two results do not agree within `1e-9` relative tolerance. -/
theorem cluster_numpy_parity_counterexample :
    cluster [[0,0],[0,0],[1,0]] 1 2 [0,1] =
      .ok [(0, ⟨[1/3,0],[[0,0],[0,0],[1,0]]⟩), (1, ⟨[0,0],[]⟩)] ∧
    cluster_numpy [[0,0],[0,0],[1,0]] 1 2 [0,1] =
      .ok [(0, ⟨[some (1/3),some 0],[[0,0],[0,0],[1,0]]⟩), (1, ⟨[none,none],[]⟩)] ∧
    resultsAgree (1/1000000000)
      [(0, ⟨[1/3,0],[[0,0],[0,0],[1,0]]⟩), (1, ⟨[0,0],[]⟩)]
      [(0, ⟨[some (1/3),some 0],[[0,0],[0,0],[1,0]]⟩), (1, ⟨[none,none],[]⟩)] = false := by
  refine ⟨?_, ?_, ?_⟩ <;> with_unfolding_all rfl

set_option maxRecDepth 100000 in
/-- **C2.** At `points = [(0,0),(0,0),(1,0)]`, `K = 2`, initial centroids both
`(0,0)`, cluster 1 receives zero points in the (only) pass.  The scalar Update
step leaves its centroid unchanged at `(0,0)` exactly as the claim demands, but
the numpy Update step (which has no empty-slice guard) overwrites it with the
NaN row `np.mean` of an empty slice produces, and `cluster_numpy` returns that
NaN centroid. -/
theorem degenerate_cluster_update :
    stepCenters [[0,0],[0,0],[1,0]] 2 2 [[0,0],[0,0]] = [[1/3,0],[0,0]] ∧
    npStepCenters [[0,0],[0,0],[1,0]] 2 2 [[some 0,some 0],[some 0,some 0]]
      = [[some (1/3),some 0],[none,none]] ∧
    cluster_numpy [[0,0],[0,0],[1,0]] 1 2 [0,1] =
      .ok [(0, ⟨[some (1/3),some 0],[[0,0],[0,0],[1,0]]⟩), (1, ⟨[none,none],[]⟩)] := by
  refine ⟨?_, ?_, ?_⟩ <;> with_unfolding_all rfl

/-- **C3 (amended).** Only `K > N` is rejected up front (the `ValueError`
`InvalidConfiguration`, raised before any centroid is chosen or iteration
runs), in both implementations.  `M ≤ 0` is not rejected: the call performs no
iteration and returns an empty result.  `K ≤ 0` (with `K ≤ N` and a nonempty
input) is not rejected up front either: a `ValueError` surfaces only once the
first assignment pass runs `min`/`argmin` on an empty distance sequence, after
the initial centroids were already selected. -/
theorem config_validation (points : List Point) (M clusters : ℕ) (draws : List ℕ) :
    (points.length < clusters →
      cluster points M clusters draws = .error .invalidConfig ∧
      cluster_numpy points M clusters draws = .error .invalidConfig) ∧
    (clusters ≤ points.length → points.isEmpty = false → M = 0 →
      cluster points M clusters draws = .ok [] ∧
      cluster_numpy points M clusters draws = .ok []) ∧
    (clusters = 0 → 0 < M → points.isEmpty = false →
      cluster points M clusters draws = .error .emptyMin ∧
      cluster_numpy points M clusters draws = .error .emptyMin) := by
  refine ⟨?_, ?_, ?_⟩
  · intro h1
    unfold cluster cluster_numpy
    rw [if_pos h1, if_pos h1]
    exact ⟨rfl, rfl⟩
  · intro h1 h2 h3
    subst h3
    have hnl : ¬ points.length < clusters := by omega
    have hng : ¬ (clusters = 0 ∧ (0:ℕ) < 0) := by omega
    unfold cluster cluster_numpy
    rw [h2, if_neg hnl, if_neg hnl]
    simp only [Bool.false_eq_true, if_false]
    rw [if_neg hng, if_neg hng]
    exact ⟨rfl, rfl⟩
  · intro h1 h2 h3
    subst h1
    have hnl : ¬ points.length < 0 := by omega
    unfold cluster cluster_numpy
    rw [h3, if_neg hnl, if_neg hnl]
    simp only [Bool.false_eq_true, if_false]
    rw [if_pos ⟨by trivial, h2⟩, if_pos ⟨by trivial, h2⟩]
    exact ⟨rfl, rfl⟩

/-- Witness for C3 (amended), at concrete inputs: `K = 2 > N = 1` errors in
both implementations; `M = 0` returns `ok []`; `K = 0` with `M = 1` raises the
assignment-pass error. -/
theorem config_validation_witness :
    (cluster [[0,0]] 3 2 [0] = .error .invalidConfig ∧
      cluster_numpy [[0,0]] 3 2 [0] = .error .invalidConfig) ∧
    (cluster [[0,0]] 0 1 [0] = .ok [] ∧ cluster_numpy [[0,0]] 0 1 [0] = .ok []) ∧
    (cluster [[0,0]] 1 0 [0] = .error .emptyMin ∧
      cluster_numpy [[0,0]] 1 0 [0] = .error .emptyMin) :=
  ⟨(config_validation [[0,0]] 3 2 [0]).1 (by decide),
   (config_validation [[0,0]] 0 1 [0]).2.1 (by decide) rfl rfl,
   (config_validation [[0,0]] 1 0 [0]).2.2 rfl (by decide) rfl⟩

/-- **C3 (counterexample).** The claim demands an `InvalidConfiguration` error
for `M ≤ 0`; at `points = [(0,0)]`, `K = 1`, `M = 0` both implementations
instead return the empty result normally (no error of any kind is raised). -/
theorem config_validation_counterexample :
    cluster [[0,0]] 0 1 [0] = .ok [] ∧ cluster_numpy [[0,0]] 0 1 [0] = .ok [] :=
  ⟨by with_unfolding_all rfl, by with_unfolding_all rfl⟩

/-- **C4.** For every valid run (`1 ≤ K ≤ N`, `M ≥ 1`) of either
implementation, the returned dictionary has exactly the keys `0..K-1` in
order, and every input point belongs to the member list of exactly one
entry — no point omitted, none placed in two clusters. -/
theorem cluster_partition (points : List Point) (M clusters : ℕ) (draws : List ℕ)
    (hK : 0 < clusters) (hKN : clusters ≤ points.length) (hM : 0 < M) :
    (∃ l, cluster points M clusters draws = .ok l ∧
      l.map Prod.fst = List.range clusters ∧
      ∀ p ∈ points, l.countP (fun e => decide (p ∈ e.2.allocated_points)) = 1) ∧
    (∃ l, cluster_numpy points M clusters draws = .ok l ∧
      l.map Prod.fst = List.range clusters ∧
      ∀ p ∈ points, l.countP (fun e => decide (p ∈ e.2.allocated_points)) = 1) := by
  constructor
  · exact ⟨_, cluster_closed_form points M clusters draws hK hKN hM,
      snapshot_keys _ _ _ _, snapshot_partition hK⟩
  · refine ⟨_, cluster_numpy_closed_form points M clusters draws hK hKN hM,
      npSnapshot_keys _ _ _ _, npSnapshot_partition hK ?_⟩
    exact npIter_length points clusters _ (np_initial_centers_length points clusters draws)
      (M - 1)

/-- Witness for C4 at the example scenario input. -/
theorem cluster_partition_witness :
    0 < 2 ∧ 2 ≤ ([[(0:ℚ),0],[0,1],[10,10],[10,11]] : List Point).length ∧ 0 < 5 ∧
    ((∃ l, cluster [[0,0],[0,1],[10,10],[10,11]] 5 2 [0,2] = .ok l ∧
        l.map Prod.fst = List.range 2 ∧
        ∀ p ∈ ([[(0:ℚ),0],[0,1],[10,10],[10,11]] : List Point),
          l.countP (fun e => decide (p ∈ e.2.allocated_points)) = 1) ∧
      (∃ l, cluster_numpy [[0,0],[0,1],[10,10],[10,11]] 5 2 [0,2] = .ok l ∧
        l.map Prod.fst = List.range 2 ∧
        ∀ p ∈ ([[(0:ℚ),0],[0,1],[10,10],[10,11]] : List Point),
          l.countP (fun e => decide (p ∈ e.2.allocated_points)) = 1)) :=
  ⟨by decide, by decide, by decide,
   cluster_partition [[0,0],[0,1],[10,10],[10,11]] 5 2 [0,2]
     (by decide) (by decide) (by decide)⟩

/-- **C5.** For every point and every list of `K ≥ 1` same-dimension
centroids, the assignment step returns an index `i < K` whose centroid is
nearest to the point under the Euclidean distance (`calculate_distance`, the
square-rooted metric the source computes), every centroid with a smaller id
being strictly farther — the first minimum of a left-to-right scan, so the
lowest cluster id wins ties; and `Calculate_index` computes exactly the same
index as `find_best_cluster` on those centroids. -/
theorem assignment_nearest (clusters dimension : ℕ) (point : Point)
    (centers : List Point) (hK : 0 < clusters) (hlen : centers.length = clusters)
    (hwfc : ∀ c ∈ centers, c.length = dimension) :
    find_best_cluster clusters point centers dimension < clusters ∧
    (∀ j < clusters,
      calculate_distance (centers.getD (find_best_cluster clusters point centers dimension) [])
          point dimension ≤ calculate_distance (centers.getD j []) point dimension) ∧
    (∀ j < find_best_cluster clusters point centers dimension,
      calculate_distance (centers.getD (find_best_cluster clusters point centers dimension) [])
          point dimension < calculate_distance (centers.getD j []) point dimension) ∧
    Calculate_index dimension [point] (centers.map (fun c => c.map some))
      = [find_best_cluster clusters point centers dimension] := by
  refine ⟨find_best_cluster_lt hK point centers dimension,
    find_best_cluster_min_dist hK point centers dimension,
    find_best_cluster_first_dist point centers dimension, ?_⟩
  unfold Calculate_index
  simp only [List.map_cons, List.map_nil]
  rw [npArgmin_centers centers dimension point hwfc, hlen]

/-- Witness for C5: the point `(1,0)` is equidistant from the centroids
`(0,0)` and `(2,0)`; the assignment picks cluster 0 (the lowest id), in both
implementations. -/
theorem assignment_nearest_witness :
    Calculate_index 2 [[1,0]] (([[(0:ℚ),0],[2,0]] : List Point).map (fun c => c.map some))
      = [find_best_cluster 2 [1,0] [[(0:ℚ),0],[2,0]] 2] ∧
    find_best_cluster 2 [1,0] [[(0:ℚ),0],[2,0]] 2 = 0 :=
  ⟨(assignment_nearest 2 2 [1,0] [[0,0],[2,0]] (by decide)
      (by with_unfolding_all rfl)
      (of_decide_eq_true (by with_unfolding_all rfl))).2.2.2,
   by with_unfolding_all rfl⟩

/-- **C6.** For every valid input the refinement loop terminates with a
result; the `iteration` counter of the `while` loop ends at exactly
`Max_iterations` in both implementations (one assignment/update pass per value
`0..M-1`, there being no early-exit test); and if the scalar centers stabilize
at some pass `t ≤ M` the remaining passes still run (as no-ops): the centers
after all `M` passes equal the stabilized ones. -/
theorem loop_runs_exactly_M (points : List Point) (M clusters : ℕ) (draws : List ℕ)
    (hK : 0 < clusters) (hKN : clusters ≤ points.length) (hM : 0 < M) :
    (∃ r, cluster points M clusters draws = .ok r) ∧
    (kmeansLoop (stepCenters points clusters (points.headD []).length)
        (snapshot points clusters (points.headD []).length) M M 0
        (initial_centers points clusters draws) []).2.2 = M ∧
    (kmeansLoop (npStepCenters points clusters (points.headD []).length)
        (npSnapshot points clusters (points.headD []).length) M M 0
        (np_initial_centers points clusters draws) []).2.2 = M ∧
    (∀ t ≤ M,
      stepCenters points clusters (points.headD []).length
          (iterSteps (stepCenters points clusters (points.headD []).length) t
            (initial_centers points clusters draws))
        = iterSteps (stepCenters points clusters (points.headD []).length) t
            (initial_centers points clusters draws) →
      iterSteps (stepCenters points clusters (points.headD []).length) M
          (initial_centers points clusters draws)
        = iterSteps (stepCenters points clusters (points.headD []).length) t
            (initial_centers points clusters draws)) := by
  refine ⟨⟨_, cluster_closed_form points M clusters draws hK hKN hM⟩, ?_, ?_, ?_⟩
  · rw [kmeansLoop_run _ _ M M 0 _ _ (by omega)]
  · rw [kmeansLoop_run _ _ M M 0 _ _ (by omega)]
  · intro t ht hfix
    have hMt : M = t + (M - t) := by omega
    rw [hMt, iterSteps_add]
    exact iterSteps_fixed _ hfix (M - t)

set_option maxRecDepth 100000 in
/-- Witness for C6 at the example scenario input (which stabilizes after the
first pass, yet all 5 passes run). -/
theorem loop_runs_exactly_M_witness :
    (∃ r, cluster [[0,0],[0,1],[10,10],[10,11]] 5 2 [0,2] = .ok r) ∧
    (kmeansLoop (stepCenters [[0,0],[0,1],[10,10],[10,11]] 2 2)
        (snapshot [[0,0],[0,1],[10,10],[10,11]] 2 2) 5 5 0
        (initial_centers [[0,0],[0,1],[10,10],[10,11]] 2 [0,2]) []).2.2 = 5 :=
  ⟨(loop_runs_exactly_M [[0,0],[0,1],[10,10],[10,11]] 5 2 [0,2]
      (by decide) (by decide) (by decide)).1,
   (loop_runs_exactly_M [[0,0],[0,1],[10,10],[10,11]] 5 2 [0,2]
      (by decide) (by decide) (by decide)).2.1⟩

/-- **C7 (amended).** The scalar initializer selects every initial centroid
from among the input points (`K` independent `randrange` draws from the
ambient global random source; duplicates are possible and no seed parameter
exists), producing exactly `K` centroids; the numpy initializer's centroid
array is the points at its `np.random.choice` indices; the initializers are
deterministic functions of the drawn indices, so identical draw sequences
yield identical initial centroids. -/
theorem seeding_selects_input_points (points : List Point) (clusters : ℕ)
    (draws : List ℕ) (hdr : ∀ i < clusters, draws.getD i 0 < points.length) :
    (initial_centers points clusters draws).length = clusters ∧
    (∀ c ∈ initial_centers points clusters draws, c ∈ points) ∧
    np_initial_centers points clusters draws =
      (initial_centers points clusters draws).map (fun c => c.map some) :=
  ⟨initial_centers_length points clusters draws, initial_centers_mem hdr,
   np_initial_centers_eq points clusters draws⟩

/-- Witness for C7 (amended) at a concrete input. -/
theorem seeding_selects_input_points_witness :
    ((initial_centers [[0,0],[1,1]] 2 [1,0]).length = 2) ∧
    (∀ c ∈ initial_centers [[0,0],[1,1]] 2 [1,0],
      c ∈ ([[(0:ℚ),0],[1,1]] : List Point)) ∧
    np_initial_centers [[0,0],[1,1]] 2 [1,0] =
      (initial_centers [[0,0],[1,1]] 2 [1,0]).map (fun c => c.map some) :=
  seeding_selects_input_points [[0,0],[1,1]] 2 [1,0] (by decide)

/-- **C7 (counterexample).** With input points `[(0,0),(1,1)]` and `K = 2`,
two `randrange` draws of index `0` (possible, since the draws are independent
and uniform over `0..N-1`) make the scalar initializer select the point
`(0,0)` twice: the selection is **with** replacement — the drawn indices are
not `K` distinct ones — and the resulting centroid list has a duplicate. -/
theorem seeding_counterexample :
    initial_centers [[0,0],[1,1]] 2 [0,0] = [[0,0],[0,0]] ∧
    ¬ (initial_centers [[0,0],[1,1]] 2 [0,0]).Nodup :=
  ⟨by with_unfolding_all rfl, of_decide_eq_false (by with_unfolding_all rfl)⟩

set_option maxRecDepth 1000000 in
/-- **C8.** With input points `{(0,0),(0,1),(10,10),(10,11)}`, `K = 2`,
`M = 5`, whenever the initializer draws make the initial centroids `(0,0)` and
`(10,10)`, `cluster` returns cluster 0 with members `[(0,0),(0,1)]` centred at
`(0, 0.5)` and cluster 1 with members `[(10,10),(10,11)]` centred at
`(10, 10.5)`; `cluster_numpy` returns the same result. -/
theorem example_scenario (draws : List ℕ)
    (h : initial_centers [[0,0],[0,1],[10,10],[10,11]] 2 draws = [[0,0],[10,10]]) :
    cluster [[0,0],[0,1],[10,10],[10,11]] 5 2 draws =
      .ok [(0, ⟨[0,1/2],[[0,0],[0,1]]⟩), (1, ⟨[10,21/2],[[10,10],[10,11]]⟩)] ∧
    cluster_numpy [[0,0],[0,1],[10,10],[10,11]] 5 2 draws =
      .ok [(0, ⟨[some 0,some (1/2)],[[0,0],[0,1]]⟩),
           (1, ⟨[some 10,some (21/2)],[[10,10],[10,11]]⟩)] := by
  have hlen : (2:ℕ) ≤ ([[(0:ℚ),0],[0,1],[10,10],[10,11]] : List Point).length := by decide
  constructor
  · rw [cluster_closed_form _ 5 2 draws (by decide) hlen (by decide), h]
    with_unfolding_all rfl
  · rw [cluster_numpy_closed_form _ 5 2 draws (by decide) hlen (by decide),
      np_initial_centers_eq, h]
    with_unfolding_all rfl

set_option maxRecDepth 1000000 in
/-- Witness for C8: the draws `[0, 2]` produce exactly the initial centroids
`(0,0)` and `(10,10)`. -/
theorem example_scenario_witness :
    initial_centers [[0,0],[0,1],[10,10],[10,11]] 2 [0,2] = [[0,0],[10,10]] ∧
    cluster [[0,0],[0,1],[10,10],[10,11]] 5 2 [0,2] =
      .ok [(0, ⟨[0,1/2],[[0,0],[0,1]]⟩), (1, ⟨[10,21/2],[[10,10],[10,11]]⟩)] ∧
    cluster_numpy [[0,0],[0,1],[10,10],[10,11]] 5 2 [0,2] =
      .ok [(0, ⟨[some 0,some (1/2)],[[0,0],[0,1]]⟩),
           (1, ⟨[some 10,some (21/2)],[[10,10],[10,11]]⟩)] :=
  ⟨by with_unfolding_all rfl, example_scenario [0,2] (by with_unfolding_all rfl)⟩

/-- **C9.** At the valid run `points = [(0,0)]`, `K = 1`, `M = 1` with the
print flag set, both implementations raise `KeyError` before emitting any
line: `print_points` looks up the key `"centers"` but the result entries are
stored under the key `"center"` (shown by the last two conjuncts). -/
theorem print_output_keyerror :
    cluster_output [[0,0]] 1 1 [0] = .error .keyError ∧
    cluster_numpy_output [[0,0]] 1 1 [0] = .error .keyError ∧
    dictLookup (entryDict ⟨[0,0],[[0,0]]⟩) "centers" = none ∧
    dictLookup (entryDict ⟨[0,0],[[0,0]]⟩) "center" = some (.pt [0,0]) := by
  refine ⟨?_, ?_, ?_, ?_⟩ <;> with_unfolding_all rfl

/-- **C10.** Neither implementation mutates the caller's `points_list`:
running the state-threaded embeddings (one read action per access the source
makes to the caller's list) returns the caller's list unchanged, while
computing exactly the pure models' results. -/
theorem points_list_unchanged (points : List Point) (M clusters : ℕ) (draws : List ℕ) :
    (clusterTracked M clusters draws points).2 = points ∧
    (clusterNumpyTracked M clusters draws points).2 = points ∧
    (clusterTracked M clusters draws points).1 = cluster points M clusters draws ∧
    (clusterNumpyTracked M clusters draws points).1 = cluster_numpy points M clusters draws := by
  rw [clusterTracked_run, clusterNumpyTracked_run]
  exact ⟨rfl, rfl, rfl, rfl⟩
